import Mathlib

/-!
# Verification of the alarket arbitrage/trading core

Shallow embedding of the trading core of the `alarket` repository:

* the `Trader` price cache (`SetPrice` / `BidPrice` / `AskPrice`, mature
  version in `internal/trader` with the one-hour TTL),
* the lot-size adjustment `adjustQuantityToLotSize`,
* the triangular-path evaluation inside `checkLoop`,
* the cycle execution `executeTrades`,
* the FIX executor (`SendMarketOrder`, the pending-order table and the
  inbound dispatch in `FromApp`).

The `shopspring/decimal` values used by the Go source are arbitrary-precision
decimals; we embed the decimal arithmetic as exact rational arithmetic (`ℚ`)
with `Int.floor` for `decimal.Floor`.  Go `time.Time` values are embedded as
integer nanosecond counts, with an explicit `now` argument replacing
`time.Now()`.  Go maps keyed by strings are embedded as association lists.
-/

namespace Alarket

/-- Association-list lookup, embedding a read from a Go `map[string]V`. -/
def lookupAssoc {α : Type} : List (String × α) → String → Option α
  | [], _ => none
  | (k, v) :: rest, s => if k = s then some v else lookupAssoc rest s

/-- One node of the trading tree (`processors.SymbolTree`, mature version):
the symbol name, the pair's base and quote assets (from the embedded
`binance.Symbol`), and the lot-size constraints parsed from the exchange
filter.  The `From`/`To` links are represented externally (the evaluation
functions take the relevant child nodes as arguments). -/
structure SymbolInfo where
  symbolName : String
  baseAsset : String
  quoteAsset : String
  lotMinQty : ℚ
  lotStepSize : ℚ
  deriving Repr, DecidableEq

/-- The `tradingTree` field of `Trader`: `map[string]*processors.SymbolTree`. -/
def TradingTree := List (String × SymbolInfo)

/-- `Trader.adjustQuantityToLotSize` (mature trader, `adjustQuantityToLotSize`):

* symbol not in the trading tree → the original quantity is returned;
* `LotMinQty <= 0` → the original quantity is returned;
* quantity below `LotMinQty` → `LotMinQty` is returned;
* otherwise `floor(quantity / minLotSize) * minLotSize` computed in decimal
  arithmetic (`decimal.Div` + `Floor` + `Mul`), embedded as exact rational
  arithmetic with `Int.floor`. -/
def adjustQuantityToLotSize (tree : TradingTree) (symbol : String) (quantity : ℚ) : ℚ :=
  match lookupAssoc tree symbol with
  | none => quantity
  | some symbolTree =>
    let minLotSize := symbolTree.lotMinQty
    if minLotSize ≤ 0 then quantity
    else if quantity < minLotSize then minLotSize
    else ((⌊quantity / minLotSize⌋ : ℤ) : ℚ) * minLotSize

/-- One entry of the `Trader.priceStorage` map (mature `Price` struct):
bid price, ask price and the `LastUpdated` timestamp (nanoseconds). -/
structure PriceEntry where
  bidPrice : ℚ
  askPrice : ℚ
  lastUpdated : ℤ
  deriving Repr, DecidableEq

/-- The `priceStorage` map of `Trader`. -/
def PriceStorage := List (String × PriceEntry)

/-- `time.Hour` in nanoseconds: the staleness TTL used by `BidPrice` and
`AskPrice` in the mature trader. -/
def ttlNanos : ℤ := 3600 * 1000000000

/-- `Trader.SetPrice`: insert a fresh entry if the symbol is absent,
otherwise overwrite bid/ask and `LastUpdated` in place. -/
def SetPrice (storage : PriceStorage) (now : ℤ) (symbol : String)
    (bidPrice askPrice : ℚ) : PriceStorage :=
  match lookupAssoc storage symbol with
  | none => (symbol, ⟨bidPrice, askPrice, now⟩) :: storage
  | some _ =>
      storage.map fun p =>
        if p.1 = symbol then (symbol, ⟨bidPrice, askPrice, now⟩) else p

/-- `Trader.BidPrice`: `(0, false)` if the symbol was never set or the entry
is older than one hour (`time.Since(price.LastUpdated) > time.Hour`),
otherwise the stored bid price with `ok = true`. -/
def BidPrice (storage : PriceStorage) (now : ℤ) (symbol : String) : ℚ × Bool :=
  match lookupAssoc storage symbol with
  | none => (0, false)
  | some price =>
      if now - price.lastUpdated > ttlNanos then (0, false)
      else (price.bidPrice, true)

/-- `Trader.AskPrice`: same staleness rule as `BidPrice`, returning the
stored ask price. -/
def AskPrice (storage : PriceStorage) (now : ℤ) (symbol : String) : ℚ × Bool :=
  match lookupAssoc storage symbol with
  | none => (0, false)
  | some price =>
      if now - price.lastUpdated > ttlNanos then (0, false)
      else (price.askPrice, true)

/-- A one-symbol trading tree whose pair has `LotMinQty = 3` and
`LotStepSize = 2` (distinct, so quantization by the two differs). -/
def c1Tree : TradingTree := [("AB", ⟨"AB", "A", "B", 3, 2⟩)]

/-- Updating an association list in place (the `some` branch of `SetPrice`)
makes the subsequent lookup return the fresh value. -/
theorem lookupAssoc_map_update (storage : PriceStorage) (symbol : String)
    (v e : PriceEntry) (h : lookupAssoc storage symbol = some e) :
    lookupAssoc
      (storage.map fun p => if p.1 = symbol then (symbol, v) else p) symbol
      = some v := by
  induction storage with
  | nil => simp [lookupAssoc] at h
  | cons kv rest ih =>
    obtain ⟨k, w⟩ := kv
    rw [List.map_cons]
    show lookupAssoc ((if k = symbol then (symbol, v) else (k, w)) ::
      List.map (fun p => if p.1 = symbol then (symbol, v) else p) rest) symbol
      = some v
    by_cases hp : k = symbol
    · rw [if_pos hp]
      simp [lookupAssoc]
    · rw [if_neg hp]
      have h2 : lookupAssoc rest symbol = some e := by
        simpa [lookupAssoc, hp] using h
      simp [lookupAssoc, hp, ih h2]

/-- Right after `SetPrice`, the storage holds the fresh entry for the symbol,
whether the symbol was previously present (in-place update) or not
(insertion at the head). -/
theorem lookupAssoc_SetPrice_self (storage : PriceStorage) (now : ℤ)
    (symbol : String) (bid ask : ℚ) :
    lookupAssoc (SetPrice storage now symbol bid ask) symbol
      = some ⟨bid, ask, now⟩ := by
  unfold SetPrice
  cases h : lookupAssoc storage symbol with
  | none => simp [lookupAssoc]
  | some e => exact lookupAssoc_map_update storage symbol _ e h

/-- C1, counterexample.  For the pair "AB" with `minQty = 3 > 0` and
`stepSize = 2 > 0` and input quantity `9 > 0`, `adjustQuantityToLotSize`
returns `9`, which is not an integer multiple of the step size `2`: the
code quantizes by `LotMinQty` and never consults `LotStepSize`. -/
theorem C1_lot_adjust_counterexample :
    lookupAssoc c1Tree "AB" = some ⟨"AB", "A", "B", 3, 2⟩ ∧
    (0 : ℚ) < 3 ∧ (0 : ℚ) < 2 ∧ (0 : ℚ) < 9 ∧
    adjustQuantityToLotSize c1Tree "AB" 9 = 9 ∧
    ¬ ∃ k : ℤ, (9 : ℚ) = (k : ℚ) * 2 := by
  refine ⟨rfl, by norm_num, by norm_num, by norm_num,
    by norm_num [adjustQuantityToLotSize, c1Tree, lookupAssoc], ?_⟩
  rintro ⟨k, hk⟩
  have h9 : (9 : ℤ) = k * 2 := by exact_mod_cast hk
  omega

/-- C1, amended.  For a symbol present in the trading tree with
`0 < lotMinQty` and a positive input quantity, the adjusted quantity is at
least `lotMinQty`, is an exact integer multiple of `lotMinQty` (the code
quantizes by the minimum lot quantity, not by the step size), and is at most
the input quantity whenever the input exceeds `lotMinQty`; the computation is
exact decimal arithmetic with floor rounding, embedded here as rational
arithmetic with `Int.floor`. -/
theorem C1_lot_adjust_amended (tree : TradingTree) (symbol : String)
    (st : SymbolInfo) (q : ℚ) (hfound : lookupAssoc tree symbol = some st)
    (hmin : 0 < st.lotMinQty) (_hq : 0 < q) :
    st.lotMinQty ≤ adjustQuantityToLotSize tree symbol q ∧
    (∃ k : ℤ, adjustQuantityToLotSize tree symbol q = (k : ℚ) * st.lotMinQty) ∧
    (st.lotMinQty < q → adjustQuantityToLotSize tree symbol q ≤ q) := by
  have hm0 : ¬ st.lotMinQty ≤ 0 := not_le.mpr hmin
  simp only [adjustQuantityToLotSize, hfound, hm0, if_false]
  by_cases hlt : q < st.lotMinQty
  · rw [if_pos hlt]
    exact ⟨le_refl _, ⟨1, by ring⟩,
      fun hgt => absurd hlt (not_lt.mpr hgt.le)⟩
  · rw [if_neg hlt]
    push_neg at hlt
    have h1 : (1 : ℚ) ≤ q / st.lotMinQty := (one_le_div hmin).mpr hlt
    have hfl : (1 : ℤ) ≤ ⌊q / st.lotMinQty⌋ := Int.le_floor.mpr (by exact_mod_cast h1)
    refine ⟨?_, ⟨⌊q / st.lotMinQty⌋, rfl⟩, fun _ => ?_⟩
    · calc st.lotMinQty = 1 * st.lotMinQty := (one_mul _).symm
        _ ≤ ((⌊q / st.lotMinQty⌋ : ℤ) : ℚ) * st.lotMinQty := by
            apply mul_le_mul_of_nonneg_right _ hmin.le
            exact_mod_cast hfl
    · calc ((⌊q / st.lotMinQty⌋ : ℤ) : ℚ) * st.lotMinQty
          ≤ (q / st.lotMinQty) * st.lotMinQty :=
            mul_le_mul_of_nonneg_right (Int.floor_le _) hmin.le
        _ = q := div_mul_cancel₀ q (ne_of_gt hmin)

/-- C1, witness: the amended theorem evaluated on the "AB" pair with
quantity 7 (`minQty = 3`, `7 > 3`, adjusted value `6 = 2 * 3`). -/
theorem C1_lot_adjust_witness :
    (3 : ℚ) ≤ adjustQuantityToLotSize c1Tree "AB" 7 ∧
    (∃ k : ℤ, adjustQuantityToLotSize c1Tree "AB" 7 = (k : ℚ) * 3) ∧
    ((3 : ℚ) < 7 → adjustQuantityToLotSize c1Tree "AB" 7 ≤ 7) :=
  C1_lot_adjust_amended c1Tree "AB" ⟨"AB", "A", "B", 3, 2⟩ 7 rfl
    (by norm_num) (by norm_num)

/-- C8.  The mature price cache: (i) a symbol never set yields `ok = false`
from both `BidPrice` and `AskPrice`; (ii) immediately after a `SetPrice` both
lookups return the stored prices with `ok = true`; (iii) an entry whose age
`now - lastUpdated` exceeds the one-hour TTL is absent (`ok = false`);
(iv) an entry younger than the TTL is present with its stored prices. -/
theorem C8_staleness (storage : PriceStorage) (now : ℤ) (symbol : String)
    (bid ask : ℚ) (e : PriceEntry) :
    (lookupAssoc storage symbol = none →
      BidPrice storage now symbol = (0, false) ∧
      AskPrice storage now symbol = (0, false)) ∧
    (BidPrice (SetPrice storage now symbol bid ask) now symbol = (bid, true) ∧
      AskPrice (SetPrice storage now symbol bid ask) now symbol = (ask, true)) ∧
    (lookupAssoc storage symbol = some e → now - e.lastUpdated > ttlNanos →
      BidPrice storage now symbol = (0, false) ∧
      AskPrice storage now symbol = (0, false)) ∧
    (lookupAssoc storage symbol = some e → now - e.lastUpdated < ttlNanos →
      BidPrice storage now symbol = (e.bidPrice, true) ∧
      AskPrice storage now symbol = (e.askPrice, true)) := by
  refine ⟨fun h => ?_, ?_, fun h hage => ?_, fun h hage => ?_⟩
  · constructor <;> simp [BidPrice, AskPrice, h]
  · have hl := lookupAssoc_SetPrice_self storage now symbol bid ask
    constructor <;> simp [BidPrice, AskPrice, hl, ttlNanos]
  · constructor <;> simp [BidPrice, AskPrice, h, hage]
  · have hnot : ¬ now - e.lastUpdated > ttlNanos := not_lt.mpr hage.le
    constructor <;> simp [BidPrice, AskPrice, h, hnot]

/-! ## The cycle walk (`checkLoop`, mature version)

`checkLoop` iterates over `node.To` (the `secondNode` group) and, inside,
over `secondNode.To` (the `lastNode` candidates).  `currentAmount` is a
mutable variable initialised once per `secondNode` group and mutated inside
the inner loop, so a skipped or evaluated path passes its (possibly
partially updated) amount to the next iteration; the embedding threads that
value explicitly.  All decimal arithmetic is embedded as `ℚ`. -/

/-- The third leg of one `checkLoop` iteration (the `Третья сделка` block
followed by the growth computation): sell at bid if the owned asset is the
pair's base asset, otherwise buy at ask with an explicit zero-divisor guard;
then `potentialGrowth = (amount/startedMoney - 1) * 100` guarded by
`decStarted.IsZero`.  Returns the mutated `currentAmount` and, when the path
was fully evaluated, `some (finalAmount, potentialGrowth)`. -/
def loopIterThird (storage : PriceStorage) (now : ℤ) (lastNode : SymbolInfo)
    (ownerOfCoin : String) (startedMoney currentAmount : ℚ) :
    ℚ × Option (ℚ × ℚ) :=
  let withGrowth : ℚ → ℚ × Option (ℚ × ℚ) := fun ca =>
    if startedMoney = 0 then (ca, none)
    else (ca, some (ca, (ca / startedMoney - 1) * 100))
  if lastNode.baseAsset = ownerOfCoin then
    let lp := BidPrice storage now lastNode.symbolName
    let ca := currentAmount * lp.1
    if lp.2 = false then (ca, none) else withGrowth ca
  else
    let lp := AskPrice storage now lastNode.symbolName
    if lp.1 = 0 then (currentAmount, none)
    else
      let ca := currentAmount / lp.1
      if lp.2 = false then (ca, none) else withGrowth ca

/-- One iteration of `checkLoop`'s inner loop over `lastNode` (mature
version): the first leg is unconditionally a buy of the root pair's base
asset at its ask price (zero-divisor guarded); the second leg applies the
base/quote orientation test against `ownerOfCoin = node.baseAsset`; then
`loopIterThird`.  Each `continue` of the source corresponds to a `none`
result, with `currentAmount` left exactly as mutated so far. -/
def loopIter (storage : PriceStorage) (now : ℤ)
    (node secondNode lastNode : SymbolInfo)
    (startedMoney currentAmount : ℚ) : ℚ × Option (ℚ × ℚ) :=
  let fp := AskPrice storage now node.symbolName
  if fp.2 = false then (currentAmount, none)
  else
    let ownerOfCoin := node.baseAsset
    if fp.1 = 0 then (currentAmount, none)
    else
      let ca1 := currentAmount / fp.1
      if secondNode.baseAsset = ownerOfCoin then
        let sp := BidPrice storage now secondNode.symbolName
        let ca2 := ca1 * sp.1
        if sp.2 = false then (ca2, none)
        else loopIterThird storage now lastNode secondNode.quoteAsset startedMoney ca2
      else
        let sp := AskPrice storage now secondNode.symbolName
        if sp.1 = 0 then (ca1, none)
        else
          let ca2 := ca1 / sp.1
          if sp.2 = false then (ca2, none)
          else loopIterThird storage now lastNode secondNode.baseAsset startedMoney ca2

/-- `checkLoop`'s inner loop over the `lastNode` candidates, collecting the
final amounts of paths whose `potentialGrowth` exceeds the `0.0` threshold
(the `out` entries), and threading the mutated `currentAmount`. -/
def innerLoop (storage : PriceStorage) (now : ℤ) (node secondNode : SymbolInfo)
    (startedMoney : ℚ) : List SymbolInfo → ℚ → List ℚ
  | [], _ => []
  | lastNode :: rest, currentAmount =>
    let r := loopIter storage now node secondNode lastNode startedMoney currentAmount
    match r.2 with
    | some (amt, g) =>
        if g > 0 then amt :: innerLoop storage now node secondNode startedMoney rest r.1
        else innerLoop storage now node secondNode startedMoney rest r.1
    | none => innerLoop storage now node secondNode startedMoney rest r.1

/-- The whole sweep of `checkLoop` over the child groups of the root node:
for each `secondNode` group, `startedMoney` and `currentAmount` are reset to
`initialAmount`.  Every path failure is a skip; the sweep is a total
function and returns the collected candidate amounts. -/
def checkLoopSweep (storage : PriceStorage) (now : ℤ) (node : SymbolInfo)
    (initialAmount : ℚ) : List (SymbolInfo × List SymbolInfo) → List ℚ
  | [] => []
  | (secondNode, lastNodes) :: rest =>
      innerLoop storage now node secondNode initialAmount lastNodes initialAmount
        ++ checkLoopSweep storage now node initialAmount rest

/-- Transcribed from the spec (§4.2, step 1): one leg priced by the
base/quote orientation rule — if the currently owned asset equals the
pair's base asset the leg is a sell (multiply by bid, owned asset becomes
the quote asset); otherwise it is a buy (divide by ask, owned asset becomes
the base asset); a missing/stale quote or a zero divisor aborts the path. -/
def specOrientationLeg (storage : PriceStorage) (now : ℤ) (pair : SymbolInfo)
    (owned : String) (amount : ℚ) : Option (String × ℚ) :=
  if pair.baseAsset = owned then
    let p := BidPrice storage now pair.symbolName
    if p.2 = false then none else some (pair.quoteAsset, amount * p.1)
  else
    let p := AskPrice storage now pair.symbolName
    if p.2 = false then none
    else if p.1 = 0 then none
    else some (pair.baseAsset, amount / p.1)

/-- Transcribed from the spec (§4.2): a depth-3 path priced by applying the
orientation rule to each of the three legs in turn, starting from the
initially owned asset `owned0`. -/
def specPathEval (storage : PriceStorage) (now : ℤ)
    (node secondNode lastNode : SymbolInfo) (owned0 : String) (amount0 : ℚ) :
    Option ℚ :=
  match specOrientationLeg storage now node owned0 amount0 with
  | none => none
  | some (o1, a1) =>
    match specOrientationLeg storage now secondNode o1 a1 with
    | none => none
    | some (o2, a2) =>
      match specOrientationLeg storage now lastNode o2 a2 with
      | none => none
      | some (_, a3) => some a3

/-- When `BidPrice` reports `ok = false` it returns price `0`. -/
theorem BidPrice_false_zero (storage : PriceStorage) (now : ℤ) (symbol : String)
    (h : (BidPrice storage now symbol).2 = false) :
    (BidPrice storage now symbol).1 = 0 := by
  simp only [BidPrice] at h ⊢
  cases hl : lookupAssoc storage symbol with
  | none => simp
  | some e =>
    rw [hl] at h
    by_cases hc : now - e.lastUpdated > ttlNanos
    · simp [hc]
    · simp [hc] at h

/-- When `AskPrice` reports `ok = false` it returns price `0`. -/
theorem AskPrice_false_zero (storage : PriceStorage) (now : ℤ) (symbol : String)
    (h : (AskPrice storage now symbol).2 = false) :
    (AskPrice storage now symbol).1 = 0 := by
  simp only [AskPrice] at h ⊢
  cases hl : lookupAssoc storage symbol with
  | none => simp
  | some e =>
    rw [hl] at h
    by_cases hc : now - e.lastUpdated > ttlNanos
    · simp [hc]
    · simp [hc] at h

/-- The third leg of a `checkLoop` iteration coincides with the spec's
orientation rule whenever `startedMoney ≠ 0` (the code's extra
`decStarted.IsZero` guard). -/
theorem loopIterThird_spec (storage : PriceStorage) (now : ℤ)
    (lastNode : SymbolInfo) (owner : String) (sm ca : ℚ) (hsm : sm ≠ 0) :
    ((loopIterThird storage now lastNode owner sm ca).2).map Prod.fst
      = (specOrientationLeg storage now lastNode owner ca).map Prod.snd := by
  simp only [loopIterThird, specOrientationLeg]
  by_cases hb : lastNode.baseAsset = owner
  · simp only [if_pos hb]
    cases hB : BidPrice storage now lastNode.symbolName with
    | mk bp okb =>
      cases okb
      · simp [hsm]
      · simp [hsm]
  · simp only [if_neg hb]
    cases hA : AskPrice storage now lastNode.symbolName with
    | mk ap oka =>
      cases oka
      · have hz : ap = 0 := by
          have := AskPrice_false_zero storage now lastNode.symbolName
          rw [hA] at this
          exact this rfl
        simp [hz]
      · by_cases hz : ap = 0
        · simp [hz]
        · simp [hz, hsm]

/-- `specPathEval` as a chain of `Option.bind`s. -/
theorem specPathEval_eq_bind (storage : PriceStorage) (now : ℤ)
    (node secondNode lastNode : SymbolInfo) (owned0 : String) (a0 : ℚ) :
    specPathEval storage now node secondNode lastNode owned0 a0
      = (specOrientationLeg storage now node owned0 a0).bind (fun r1 =>
          (specOrientationLeg storage now secondNode r1.1 r1.2).bind (fun r2 =>
            (specOrientationLeg storage now lastNode r2.1 r2.2).map Prod.snd)) := by
  unfold specPathEval
  cases specOrientationLeg storage now node owned0 a0 with
  | none => simp
  | some r1 =>
    obtain ⟨o1, a1⟩ := r1
    simp only [Option.some_bind]
    cases specOrientationLeg storage now secondNode o1 a1 with
    | none => simp
    | some r2 =>
      obtain ⟨o2, a2⟩ := r2
      simp only [Option.some_bind]
      cases specOrientationLeg storage now lastNode o2 a2 with
      | none => simp
      | some r3 => simp

/-- C2, amended.  Provided the root pair's base and quote assets differ and
`startedMoney ≠ 0`, the evaluation of one depth-3 path in the cycle walk
coincides with the spec's orientation rule applied to all three legs with
the initially owned asset taken to be the root pair's quote asset: the
walk's unconditional first-leg buy at the ask price is exactly the rule's
"otherwise" branch, and legs 2 and 3 test the orientation explicitly. -/
theorem C2_orientation_amended (storage : PriceStorage) (now : ℤ)
    (node secondNode lastNode : SymbolInfo) (sm ca : ℚ)
    (hbq : node.baseAsset ≠ node.quoteAsset) (hsm : sm ≠ 0) :
    ((loopIter storage now node secondNode lastNode sm ca).2).map Prod.fst
      = specPathEval storage now node secondNode lastNode node.quoteAsset ca := by
  rw [specPathEval_eq_bind]
  cases hA : AskPrice storage now node.symbolName with
  | mk ap1 ok1 =>
    cases ok1
    · simp [loopIter, specOrientationLeg, hA, hbq]
    · by_cases hz1 : ap1 = 0
      · simp [loopIter, specOrientationLeg, hA, hbq, hz1]
      · have l1 : specOrientationLeg storage now node node.quoteAsset ca
            = some (node.baseAsset, ca / ap1) := by
          simp [specOrientationLeg, hA, hbq, hz1]
        by_cases hb2 : secondNode.baseAsset = node.baseAsset
        · cases hB2 : BidPrice storage now secondNode.symbolName with
          | mk bp2 okb2 =>
            cases okb2
            · simp [loopIter, specOrientationLeg, hA, hbq, hz1, hb2, hB2]
            · have l2 : specOrientationLeg storage now secondNode node.baseAsset
                  (ca / ap1) = some (secondNode.quoteAsset, ca / ap1 * bp2) := by
                simp [specOrientationLeg, hB2, hb2]
              have h3 := loopIterThird_spec storage now lastNode
                secondNode.quoteAsset sm (ca / ap1 * bp2) hsm
              rw [l1]
              simp only [Option.some_bind]
              rw [l2]
              simp only [Option.some_bind]
              simp only [loopIter, hA, hz1, hb2, if_pos, if_neg]
              simp [hz1, hb2, hB2]
              exact h3
        · cases hA2 : AskPrice storage now secondNode.symbolName with
          | mk ap2 oka2 =>
            cases oka2
            · have hz2 : ap2 = 0 := by
                have := AskPrice_false_zero storage now secondNode.symbolName
                rw [hA2] at this
                exact this rfl
              simp [loopIter, specOrientationLeg, hA, hbq, hz1, hb2, hA2, hz2]
            · by_cases hz2 : ap2 = 0
              · simp [loopIter, specOrientationLeg, hA, hbq, hz1, hb2, hA2, hz2]
              · have l2 : specOrientationLeg storage now secondNode node.baseAsset
                    (ca / ap1) = some (secondNode.baseAsset, ca / ap1 / ap2) := by
                  simp [specOrientationLeg, hA2, hb2, hz2]
                have h3 := loopIterThird_spec storage now lastNode
                  secondNode.baseAsset sm (ca / ap1 / ap2) hsm
                rw [l1]
                simp only [Option.some_bind]
                rw [l2]
                simp only [Option.some_bind]
                simp [loopIter, hA, hz1, hb2, hA2, hz2]
                exact h3

/-- Fresh quotes for a walk rooted at the pair USDTTRY (base asset USDT),
plus a bridge pair BTRY and a closing pair BUSDT. -/
def c2Storage : PriceStorage :=
  [("USDTTRY", ⟨2, 4, 0⟩), ("BTRY", ⟨1, 1, 0⟩), ("BUSDT", ⟨1, 1, 0⟩)]

/-- Root pair with `baseAsset = "USDT"`: the seed currency is the base. -/
def c2Node : SymbolInfo := ⟨"USDTTRY", "USDT", "TRY", 1, 1⟩

/-- Bridge pair of the walk. -/
def c2Second : SymbolInfo := ⟨"BTRY", "B", "TRY", 1, 1⟩

/-- Closing pair of the walk. -/
def c2Last : SymbolInfo := ⟨"BUSDT", "B", "USDT", 1, 1⟩

/-- C2, counterexample.  With the initially owned asset "USDT" (the seed
currency used by execution) and the root pair USDTTRY whose base asset is
USDT, the orientation rule prices the first leg as a sell at the bid (final
amount 2), but the cycle walk unconditionally prices the first leg as a buy
at the ask (final amount 1/4): the first leg is not priced by the
orientation rule. -/
theorem C2_orientation_counterexample :
    ((loopIter c2Storage 0 c2Node c2Second c2Last 1 1).2).map Prod.fst
      = some (1 / 4) ∧
    specPathEval c2Storage 0 c2Node c2Second c2Last "USDT" 1 = some 2 ∧
    ((1 : ℚ) / 4) ≠ 2 := by
  refine ⟨?_, ?_, by norm_num⟩
  · simp +decide only [loopIter, loopIterThird, specPathEval,
      specOrientationLeg, AskPrice, BidPrice, lookupAssoc, c2Storage, c2Node,
      c2Second, c2Last, ttlNanos, ite_true, ite_false]
    norm_num
  · simp +decide only [loopIter, loopIterThird, specPathEval,
      specOrientationLeg, AskPrice, BidPrice, lookupAssoc, c2Storage, c2Node,
      c2Second, c2Last, ttlNanos, ite_true, ite_false]
    norm_num

/-- C2, witness: the amended theorem evaluated on the same concrete walk,
with the initially owned asset taken to be the root pair's quote asset. -/
theorem C2_orientation_witness :
    ((loopIter c2Storage 0 c2Node c2Second c2Last 1 1).2).map Prod.fst
      = specPathEval c2Storage 0 c2Node c2Second c2Last c2Node.quoteAsset 1 :=
  C2_orientation_amended c2Storage 0 c2Node c2Second c2Last 1 1
    (by decide) (by norm_num)

/-- C9.  During one evaluation sweep, a leg whose price lookup reports
`ok = false` or whose divisor price is exactly zero skips only that single
path: (1) a missing/stale first-leg quote yields a skip with the amount
untouched; (2) a zero first-leg ask yields a skip before the division is
performed; (3) a missing/stale bid on a sell-oriented second leg skips;
(4) a zero ask on a buy-oriented second leg (which subsumes a missing
quote, whose price is 0) skips before the division; (5)/(6) likewise for
the third leg; and (7) after any skip the inner loop simply continues with
the remaining candidate paths — the sweep is a total function, so no panic
or error propagates out of it. -/
theorem C9_path_skip (storage : PriceStorage) (now : ℤ)
    (node secondNode lastNode : SymbolInfo) (owner : String) (sm ca : ℚ)
    (rest : List SymbolInfo) :
    ((AskPrice storage now node.symbolName).2 = false →
      loopIter storage now node secondNode lastNode sm ca = (ca, none)) ∧
    ((AskPrice storage now node.symbolName).1 = 0 →
      loopIter storage now node secondNode lastNode sm ca = (ca, none)) ∧
    ((AskPrice storage now node.symbolName).2 = true →
      (AskPrice storage now node.symbolName).1 ≠ 0 →
      secondNode.baseAsset = node.baseAsset →
      (BidPrice storage now secondNode.symbolName).2 = false →
      (loopIter storage now node secondNode lastNode sm ca).2 = none) ∧
    ((AskPrice storage now node.symbolName).2 = true →
      (AskPrice storage now node.symbolName).1 ≠ 0 →
      secondNode.baseAsset ≠ node.baseAsset →
      (AskPrice storage now secondNode.symbolName).1 = 0 →
      (loopIter storage now node secondNode lastNode sm ca).2 = none) ∧
    (lastNode.baseAsset = owner →
      (BidPrice storage now lastNode.symbolName).2 = false →
      (loopIterThird storage now lastNode owner sm ca).2 = none) ∧
    (lastNode.baseAsset ≠ owner →
      (AskPrice storage now lastNode.symbolName).1 = 0 →
      (loopIterThird storage now lastNode owner sm ca).2 = none) ∧
    ((loopIter storage now node secondNode lastNode sm ca).2 = none →
      innerLoop storage now node secondNode sm (lastNode :: rest) ca
        = innerLoop storage now node secondNode sm rest
            (loopIter storage now node secondNode lastNode sm ca).1) := by
  refine ⟨fun h1 => ?_, fun h2 => ?_, fun h1 h2 h3 h4 => ?_,
    fun h1 h2 h3 h4 => ?_, fun h1 h2 => ?_, fun h1 h2 => ?_, fun h => ?_⟩
  · simp [loopIter, h1]
  · cases hA : AskPrice storage now node.symbolName with
    | mk p ok =>
      rw [hA] at h2
      simp only at h2
      cases ok <;> simp [loopIter, hA, h2]
  · simp [loopIter, h1, h2, h3, h4]
  · simp [loopIter, h1, h2, h3, h4]
  · simp [loopIterThird, h1, h2]
  · simp [loopIterThird, h1, h2]
  · simp [innerLoop, h]

/-- A price book where the root pair's ask price is exactly zero
(Scenario C of the spec). -/
def c9ZeroStorage : PriceStorage := [("USDTTRY", ⟨2, 0, 0⟩)]

/-- C9, witness: with an empty price book the first leg's lookup fails and
the path is skipped with the amount untouched, the inner loop continuing on
the remaining candidates; with a zero ask price on the root pair the path
is likewise skipped without performing the division. -/
theorem C9_path_skip_witness :
    loopIter [] 0 c2Node c2Second c2Last 1 1 = (1, none) ∧
    (innerLoop [] 0 c2Node c2Second 1 [c2Last] 1
      = innerLoop [] 0 c2Node c2Second 1 []
          (loopIter [] 0 c2Node c2Second c2Last 1 1).1) ∧
    loopIter c9ZeroStorage 0 c2Node c2Second c2Last 1 1 = (1, none) := by
  have h1 := (C9_path_skip [] 0 c2Node c2Second c2Last "X" 1 1 []).1 rfl
  have h7 := ((C9_path_skip [] 0 c2Node c2Second c2Last "X" 1 1 []).2.2.2.2.2.2)
    (by rw [h1])
  have h2 := ((C9_path_skip c9ZeroStorage 0 c2Node c2Second c2Last "X" 1
    1 []).2.1) (by simp [AskPrice, lookupAssoc, c9ZeroStorage, c2Node, ttlNanos])
  exact ⟨h1, h7, h2⟩

/-! ## Cycle execution (`executeTrades`, mature version)

The executor collaborator is modelled by a script of responses: each
`SellMarket`/`BuyMarket` call consumes the next `LegResp` (the terminal
`ExecutionReport` fields the function reads plus the returned error).  The
embedding follows the source's three delimited blocks (`First trade`,
`Second trade`, `Third trade`); each `return false` becomes an `Except.error`
carrying the orders submitted so far, and the final `panic("stop")` becomes
the `panicked` outcome. -/

/-- The fields of an `ExecutionReport` that `executeTrades` reads. -/
structure ExecReport where
  cumQty : ℚ
  cumQuoteQty : ℚ
  deriving Repr, DecidableEq

/-- One executor response: the error returned by the market-order call and
the execution report. -/
structure LegResp where
  err : Option String
  report : ExecReport
  deriving Repr, DecidableEq

/-- A submitted market order: symbol, side (`"1"` buy / `"2"` sell, as in
the FIX executor) and quantity. -/
structure MarketOrder where
  symbol : String
  side : String
  quantity : ℚ
  deriving Repr, DecidableEq

/-- How `executeTrades` terminates: a normal boolean return, or the
`panic("stop")` that follows a fully completed cycle in the source. -/
inductive ExecOutcome
  | ret (completed : Bool)
  | panicked (msg : String)
  deriving Repr, DecidableEq

/-- Result of a cycle execution: the termination outcome, the submitted
orders in order, and the profit report `(initialUSDT, finalUSDT, pct)`
computed on full completion (printed only in the source). -/
structure ExecTradesResult where
  outcome : ExecOutcome
  orders : List MarketOrder
  profit : Option (ℚ × ℚ × ℚ)
  deriving Repr, DecidableEq

/-- Pop the next executor response.  The FIX call always returns; an
exhausted script models a transport error. -/
def takeResp : List LegResp → LegResp × List LegResp
  | [] => (⟨some "no response", ⟨0, 0⟩⟩, [])
  | r :: rest => (r, rest)

/-- State carried from one trade block to the next: `initialUSDT` (used only
for the profit report), the running amount, the currently owned asset, the
remaining executor script and the orders submitted so far. -/
structure LegState where
  initialUSDT : ℚ
  currentAmount : ℚ
  ownerOfCoin : String
  script : List LegResp
  orders : List MarketOrder
  deriving Repr, DecidableEq

/-- Tail of the `First trade` block (source: the shared `err != nil` check,
the `CumQuoteQty > 0` update of `initialUSDT`, `currentAmount :=
firstReport.CumQty`, and the owned-asset update). -/
def firstTradeFinish (node : SymbolInfo) (initialUSDT0 : ℚ) (resp : LegResp)
    (rest : List LegResp) (order : MarketOrder) :
    Except (List MarketOrder) LegState :=
  match resp.err with
  | some _ => .error [order]
  | none =>
    let initialUSDT :=
      if resp.report.cumQuoteQty > 0 then resp.report.cumQuoteQty
      else initialUSDT0
    let owner :=
      if node.baseAsset = "USDT" then node.quoteAsset else node.baseAsset
    .ok ⟨initialUSDT, resp.report.cumQty, owner, rest, [order]⟩

/-- The `First trade` block: sell 20 USDT when USDT is the base asset,
otherwise buy the base asset with 20 USDT at the ask price (zero-divisor
guarded); in both branches the submitted quantity passes through
`adjustQuantityToLotSize`. -/
def firstTrade (tree : TradingTree) (storage : PriceStorage) (now : ℤ)
    (node : SymbolInfo) (firstSymbol : String) (script : List LegResp) :
    Except (List MarketOrder) LegState :=
  if node.baseAsset = "USDT" then
    let adjusted := adjustQuantityToLotSize tree firstSymbol 20
    let r := takeResp script
    firstTradeFinish node adjusted r.1 r.2 ⟨firstSymbol, "2", adjusted⟩
  else
    let ap := AskPrice storage now firstSymbol
    if ap.2 = false then .error []
    else if ap.1 = 0 then .error []
    else
      let adjusted := adjustQuantityToLotSize tree firstSymbol (20 / ap.1)
      let r := takeResp script
      firstTradeFinish node (adjusted * ap.1) r.1 r.2 ⟨firstSymbol, "1", adjusted⟩

/-- Tail of the `Second trade` block: the shared `err != nil` check, then
`currentAmount := secondReport.CumQty` (`cum` is the report's `cumQty`,
possibly overwritten by the mock-environment workaround). -/
def secondTradeFinish (st : LegState) (order : MarketOrder) (owner : String)
    (cum : ℚ) (resp : LegResp) (rest : List LegResp) :
    Except (List MarketOrder) LegState :=
  match resp.err with
  | some _ => .error (st.orders ++ [order])
  | none => .ok ⟨st.initialUSDT, cum, owner, rest, st.orders ++ [order]⟩

/-- The `Second trade` block: sell the owned base asset, or buy the base
asset at the ask price (zero-divisor guarded); the submitted quantity passes
through `adjustQuantityToLotSize`.  When the symbol is absent from the
trading tree, the mock-environment workaround overwrites the report's
`CumQty` with a price-converted estimate. -/
def secondTrade (tree : TradingTree) (storage : PriceStorage) (now : ℤ)
    (secondNode : SymbolInfo) (secondSymbol : String) (st : LegState) :
    Except (List MarketOrder) LegState :=
  if secondNode.baseAsset = st.ownerOfCoin then
    let adjusted := adjustQuantityToLotSize tree secondSymbol st.currentAmount
    let r := takeResp st.script
    let cum :=
      if lookupAssoc tree secondSymbol = none then
        let bp := BidPrice storage now secondSymbol
        if bp.2 = true ∧ bp.1 > 0 then adjusted * bp.1 else adjusted
      else r.1.report.cumQty
    secondTradeFinish st ⟨secondSymbol, "2", adjusted⟩ secondNode.quoteAsset
      cum r.1 r.2
  else
    let ap := AskPrice storage now secondSymbol
    if ap.2 = false then .error st.orders
    else if ap.1 = 0 then .error st.orders
    else
      let adjusted :=
        adjustQuantityToLotSize tree secondSymbol (st.currentAmount / ap.1)
      let r := takeResp st.script
      let cum :=
        if lookupAssoc tree secondSymbol = none then
          if ap.1 > 0 then st.currentAmount / ap.1 else adjusted
        else r.1.report.cumQty
      secondTradeFinish st ⟨secondSymbol, "1", adjusted⟩ secondNode.baseAsset
        cum r.1 r.2

/-- The `Third trade` block: sell or buy as before; on success it yields the
submitted orders and `finalUSDT` (the report's `CumQuoteQty`, possibly
overwritten by the mock workaround - in the buy branch both workaround arms
assign `currentAmount`). -/
def thirdTrade (tree : TradingTree) (storage : PriceStorage) (now : ℤ)
    (lastNode : SymbolInfo) (lastSymbol : String) (st : LegState) :
    Except (List MarketOrder) (List MarketOrder × ℚ) :=
  if lastNode.baseAsset = st.ownerOfCoin then
    let adjusted := adjustQuantityToLotSize tree lastSymbol st.currentAmount
    let r := takeResp st.script
    let cumQuote :=
      if lookupAssoc tree lastSymbol = none then
        let bp := BidPrice storage now lastSymbol
        if bp.2 = true ∧ bp.1 > 0 then adjusted * bp.1 else adjusted
      else r.1.report.cumQuoteQty
    match r.1.err with
    | some _ => .error (st.orders ++ [⟨lastSymbol, "2", adjusted⟩])
    | none => .ok (st.orders ++ [⟨lastSymbol, "2", adjusted⟩], cumQuote)
  else
    let ap := AskPrice storage now lastSymbol
    if ap.2 = false then .error st.orders
    else if ap.1 = 0 then .error st.orders
    else
      let adjusted :=
        adjustQuantityToLotSize tree lastSymbol (st.currentAmount / ap.1)
      let r := takeResp st.script
      let cumQuote :=
        if lookupAssoc tree lastSymbol = none then st.currentAmount
        else r.1.report.cumQuoteQty
      match r.1.err with
      | some _ => .error (st.orders ++ [⟨lastSymbol, "1", adjusted⟩])
      | none => .ok (st.orders ++ [⟨lastSymbol, "1", adjusted⟩], cumQuote)

/-- `Trader.executeTrades` (mature version): path-format check, the three
sequential trade blocks, and on full completion the profit report followed
by `t.executor.Close()` and `panic("stop")` — the source's `return true`
after the panic is unreachable. -/
def executeTrades (tree : TradingTree) (storage : PriceStorage) (now : ℤ)
    (node secondNode lastNode : SymbolInfo) (pathParts : List String)
    (script : List LegResp) : ExecTradesResult :=
  match pathParts with
  | [firstSymbol, secondSymbol, lastSymbol] =>
    match firstTrade tree storage now node firstSymbol script with
    | .error orders => ⟨.ret false, orders, none⟩
    | .ok st1 =>
      match secondTrade tree storage now secondNode secondSymbol st1 with
      | .error orders => ⟨.ret false, orders, none⟩
      | .ok st2 =>
        match thirdTrade tree storage now lastNode lastSymbol st2 with
        | .error orders => ⟨.ret false, orders, none⟩
        | .ok (orders, finalUSDT) =>
          let initial := st2.initialUSDT
          let pct :=
            if initial = 0 then 0 else (finalUSDT - initial) / initial * 100
          ⟨.panicked "stop", orders, some (initial, finalUSDT, pct)⟩
  | _ => ⟨.ret false, [], none⟩

/-- The orders submitted by a trade block, whether it aborted or not. -/
def exceptOrders : Except (List MarketOrder) LegState → List MarketOrder
  | .error orders => orders
  | .ok st => st.orders

/-- `adjustQuantityToLotSize` is idempotent: re-adjusting an already
adjusted quantity changes nothing. -/
theorem adjustQuantityToLotSize_idem (tree : TradingTree) (s : String)
    (q : ℚ) :
    adjustQuantityToLotSize tree s (adjustQuantityToLotSize tree s q)
      = adjustQuantityToLotSize tree s q := by
  cases h : lookupAssoc tree s with
  | none => simp [adjustQuantityToLotSize, h]
  | some st =>
    by_cases hm : st.lotMinQty ≤ 0
    · simp [adjustQuantityToLotSize, h, hm]
    · push_neg at hm
      have hm0 : st.lotMinQty ≠ 0 := ne_of_gt hm
      by_cases hlt : q < st.lotMinQty
      · have hself : ¬ st.lotMinQty < st.lotMinQty := lt_irrefl _
        simp only [adjustQuantityToLotSize, h, not_le.mpr hm, if_false,
          ite_false, if_pos hlt, if_neg hself]
        rw [div_self hm0]
        norm_num
      · have hge : st.lotMinQty ≤ q := not_lt.mp hlt
        have h1 : (1 : ℤ) ≤ ⌊q / st.lotMinQty⌋ :=
          Int.le_floor.mpr (by
            push_cast
            exact (one_le_div hm).mpr hge)
        have hvge : st.lotMinQty ≤ ((⌊q / st.lotMinQty⌋ : ℤ) : ℚ) * st.lotMinQty := by
          calc st.lotMinQty = 1 * st.lotMinQty := (one_mul _).symm
            _ ≤ ((⌊q / st.lotMinQty⌋ : ℤ) : ℚ) * st.lotMinQty :=
                mul_le_mul_of_nonneg_right (by exact_mod_cast h1) hm.le
        have hvlt : ¬ ((⌊q / st.lotMinQty⌋ : ℤ) : ℚ) * st.lotMinQty
            < st.lotMinQty := not_lt.mpr hvge
        simp only [adjustQuantityToLotSize, h, not_le.mpr hm, if_false,
          ite_false, if_neg hlt, if_neg hvlt]
        rw [mul_div_cancel_right₀ _ hm0, Int.floor_intCast]

/-- All orders in the list carry a quantity that the lot-size adjustment
leaves unchanged (i.e. an adjusted quantity). -/
def OrdersAdjusted (tree : TradingTree) (l : List MarketOrder) : Prop :=
  ∀ o ∈ l, adjustQuantityToLotSize tree o.symbol o.quantity = o.quantity

/-- Appending an order whose quantity went through the adjustment preserves
`OrdersAdjusted`. -/
theorem OrdersAdjusted.append_adj {tree : TradingTree} {l : List MarketOrder}
    (h : OrdersAdjusted tree l) (s side : String) (q : ℚ) :
    OrdersAdjusted tree
      (l ++ [⟨s, side, adjustQuantityToLotSize tree s q⟩]) := by
  intro o ho
  rcases List.mem_append.mp ho with h1 | h2
  · exact h o h1
  · rw [List.mem_singleton.mp h2]
    exact adjustQuantityToLotSize_idem tree s q

/-- A one-element list with an adjusted order is `OrdersAdjusted`. -/
theorem OrdersAdjusted.single_adj (tree : TradingTree) (s side : String)
    (q : ℚ) :
    OrdersAdjusted tree [⟨s, side, adjustQuantityToLotSize tree s q⟩] := by
  intro o ho
  rw [List.mem_singleton.mp ho]
  exact adjustQuantityToLotSize_idem tree s q

/-- The empty order list is trivially `OrdersAdjusted`. -/
theorem OrdersAdjusted.nil (tree : TradingTree) : OrdersAdjusted tree [] := by
  intro o ho
  exact absurd ho (List.not_mem_nil o)

/-- The orders of a third-trade result, whether it aborted or not. -/
def thirdOrders : Except (List MarketOrder) (List MarketOrder × ℚ) →
    List MarketOrder
  | .error orders => orders
  | .ok p => p.1

/-- The common tail of the first trade block yields a single order whose
quantity went through the adjustment. -/
theorem firstTradeFinish_adjusted (tree : TradingTree) (node : SymbolInfo)
    (x : ℚ) (resp : LegResp) (rest : List LegResp) (s side : String) (q : ℚ) :
    OrdersAdjusted tree
      (exceptOrders (firstTradeFinish node x resp rest
        ⟨s, side, adjustQuantityToLotSize tree s q⟩)) := by
  cases he : resp.err <;>
    simp only [firstTradeFinish, he, exceptOrders] <;>
    exact OrdersAdjusted.single_adj tree s side q

/-- Every order submitted by the first trade block went through the
lot-size adjustment. -/
theorem firstTrade_adjusted (tree : TradingTree) (storage : PriceStorage)
    (now : ℤ) (node : SymbolInfo) (firstSymbol : String)
    (script : List LegResp) :
    OrdersAdjusted tree
      (exceptOrders (firstTrade tree storage now node firstSymbol script)) := by
  unfold firstTrade
  by_cases hb : node.baseAsset = "USDT"
  · rw [if_pos hb]
    exact firstTradeFinish_adjusted tree node _ _ _ firstSymbol "2" 20
  · rw [if_neg hb]
    dsimp only
    by_cases h2 : (AskPrice storage now firstSymbol).2 = false
    · rw [if_pos h2]
      exact OrdersAdjusted.nil tree
    · rw [if_neg h2]
      by_cases h3 : (AskPrice storage now firstSymbol).1 = 0
      · rw [if_pos h3]
        exact OrdersAdjusted.nil tree
      · rw [if_neg h3]
        exact firstTradeFinish_adjusted tree node _ _ _ firstSymbol "1" _

/-- The common tail of the second trade block appends a single adjusted
order. -/
theorem secondTradeFinish_adjusted (tree : TradingTree) (st : LegState)
    (h : OrdersAdjusted tree st.orders) (s side : String) (q : ℚ)
    (owner : String) (cum : ℚ) (resp : LegResp) (rest : List LegResp) :
    OrdersAdjusted tree
      (exceptOrders (secondTradeFinish st
        ⟨s, side, adjustQuantityToLotSize tree s q⟩ owner cum resp rest)) := by
  cases he : resp.err <;>
    simp only [secondTradeFinish, he, exceptOrders] <;>
    exact OrdersAdjusted.append_adj h s side q

/-- The second trade block preserves `OrdersAdjusted`. -/
theorem secondTrade_adjusted (tree : TradingTree) (storage : PriceStorage)
    (now : ℤ) (secondNode : SymbolInfo) (secondSymbol : String)
    (st : LegState) (h : OrdersAdjusted tree st.orders) :
    OrdersAdjusted tree
      (exceptOrders (secondTrade tree storage now secondNode secondSymbol st)) := by
  unfold secondTrade
  by_cases hb : secondNode.baseAsset = st.ownerOfCoin
  · rw [if_pos hb]
    exact secondTradeFinish_adjusted tree st h secondSymbol "2" _ _ _ _ _
  · rw [if_neg hb]
    dsimp only
    by_cases h2 : (AskPrice storage now secondSymbol).2 = false
    · rw [if_pos h2]
      exact h
    · rw [if_neg h2]
      by_cases h3 : (AskPrice storage now secondSymbol).1 = 0
      · rw [if_pos h3]
        exact h
      · rw [if_neg h3]
        exact secondTradeFinish_adjusted tree st h secondSymbol "1" _ _ _ _ _

/-- The third trade block preserves `OrdersAdjusted`. -/
theorem thirdTrade_adjusted (tree : TradingTree) (storage : PriceStorage)
    (now : ℤ) (lastNode : SymbolInfo) (lastSymbol : String)
    (st : LegState) (h : OrdersAdjusted tree st.orders) :
    OrdersAdjusted tree
      (thirdOrders (thirdTrade tree storage now lastNode lastSymbol st)) := by
  unfold thirdTrade
  by_cases hb : lastNode.baseAsset = st.ownerOfCoin
  · rw [if_pos hb]
    dsimp only
    cases he : (takeResp st.script).1.err <;>
      simp only [he, thirdOrders] <;>
      exact OrdersAdjusted.append_adj h lastSymbol "2" _
  · rw [if_neg hb]
    dsimp only
    by_cases h2 : (AskPrice storage now lastSymbol).2 = false
    · rw [if_pos h2]
      exact h
    · rw [if_neg h2]
      by_cases h3 : (AskPrice storage now lastSymbol).1 = 0
      · rw [if_pos h3]
        exact h
      · rw [if_neg h3]
        cases he : (takeResp st.script).1.err <;>
          simp only [he, thirdOrders] <;>
          exact OrdersAdjusted.append_adj h lastSymbol "1" _

/-- Every order submitted during a cycle execution went through the
lot-size adjustment. -/
theorem executeTrades_adjusted (tree : TradingTree) (storage : PriceStorage)
    (now : ℤ) (node secondNode lastNode : SymbolInfo)
    (pathParts : List String) (script : List LegResp) :
    OrdersAdjusted tree
      (executeTrades tree storage now node secondNode lastNode pathParts
        script).orders := by
  unfold executeTrades
  split
  · rename_i firstSymbol secondSymbol lastSymbol
    have h1 := firstTrade_adjusted tree storage now node firstSymbol script
    cases hf : firstTrade tree storage now node firstSymbol script with
    | error o =>
      rw [hf] at h1
      simpa [exceptOrders] using h1
    | ok st1 =>
      rw [hf] at h1
      simp only [exceptOrders] at h1
      dsimp only
      have h2 := secondTrade_adjusted tree storage now secondNode secondSymbol
        st1 h1
      cases hs : secondTrade tree storage now secondNode secondSymbol st1 with
      | error o =>
        rw [hs] at h2
        simpa [exceptOrders] using h2
      | ok st2 =>
        rw [hs] at h2
        simp only [exceptOrders] at h2
        dsimp only
        have h3 := thirdTrade_adjusted tree storage now lastNode lastSymbol
          st2 h2
        cases ht : thirdTrade tree storage now lastNode lastSymbol st2 with
        | error o =>
          rw [ht] at h3
          simpa [thirdOrders] using h3
        | ok p =>
          obtain ⟨ords, fin⟩ := p
          rw [ht] at h3
          simpa [thirdOrders] using h3
  · exact OrdersAdjusted.nil tree

/-- A standard root pair whose quote asset is USDT. -/
def btcNode : SymbolInfo := ⟨"BTCUSDT", "BTC", "USDT", 1, 1⟩

/-- Bridge pair for the BTC cycle. -/
def ethbtcNode : SymbolInfo := ⟨"ETHBTC", "ETH", "BTC", 1, 1⟩

/-- Closing pair for the BTC cycle. -/
def ethusdtNode : SymbolInfo := ⟨"ETHUSDT", "ETH", "USDT", 1, 1⟩

/-- A price book with an ask of 3 on the root pair (so `20 / 3` is the raw
first-leg quantity) and fresh quotes on the other pairs. -/
def btcStorage : PriceStorage :=
  [("BTCUSDT", ⟨2, 3, 0⟩), ("ETHBTC", ⟨1, 1, 0⟩), ("ETHUSDT", ⟨1, 1, 0⟩)]

/-- C7, counterexample.  With an empty trading tree (the traded symbol is
absent from it), the first leg buys with quantity `20 / 3` — exactly the
raw, unadjusted division result — because `adjustQuantityToLotSize` returns
the original quantity unchanged for a symbol it cannot find; the executor
therefore does submit a raw quantity in that case. -/
theorem C7_no_raw_quantity_counterexample :
    (AskPrice btcStorage 0 "BTCUSDT").1 = 3 ∧
    lookupAssoc ([] : TradingTree) "BTCUSDT" = none ∧
    (executeTrades [] btcStorage 0 btcNode ethbtcNode ethusdtNode
        ["BTCUSDT", "ETHBTC", "ETHUSDT"]
        [⟨none, ⟨1, 1⟩⟩, ⟨none, ⟨1, 1⟩⟩, ⟨none, ⟨1, 1⟩⟩]).orders.get? 0
      = some ⟨"BTCUSDT", "1", 20 / 3⟩ ∧
    adjustQuantityToLotSize [] "BTCUSDT" (20 / 3) = 20 / 3 := by
  refine ⟨?_, rfl, ?_, rfl⟩
  · simp +decide only [AskPrice, lookupAssoc, btcStorage, ttlNanos, ite_true,
      ite_false]
  · simp +decide only [executeTrades, firstTrade, firstTradeFinish,
      secondTrade, secondTradeFinish, thirdTrade, takeResp,
      adjustQuantityToLotSize, AskPrice, BidPrice, lookupAssoc, btcStorage,
      btcNode, ethbtcNode, ethusdtNode, ttlNanos, ite_true, ite_false]
    norm_num

/-- C7, amended.  Every order submitted by the (mature) cycle execution has
a quantity that passed through `adjustQuantityToLotSize` (the adjustment is
idempotent, so every submitted quantity is a fixed point of it) — but the
adjustment degenerates to the identity when the traded symbol is absent
from the trading tree or its recorded minimum lot size is non-positive, so
in exactly those cases the submitted quantity is the raw input quantity. -/
theorem C7_no_raw_quantity_amended (tree : TradingTree)
    (storage : PriceStorage) (now : ℤ) (node secondNode lastNode : SymbolInfo)
    (pathParts : List String) (script : List LegResp) :
    (∀ o ∈ (executeTrades tree storage now node secondNode lastNode pathParts
        script).orders,
      adjustQuantityToLotSize tree o.symbol o.quantity = o.quantity) ∧
    (∀ (s : String) (q : ℚ), lookupAssoc tree s = none →
      adjustQuantityToLotSize tree s q = q) ∧
    (∀ (s : String) (q : ℚ) (info : SymbolInfo),
      lookupAssoc tree s = some info → info.lotMinQty ≤ 0 →
      adjustQuantityToLotSize tree s q = q) := by
  refine ⟨executeTrades_adjusted tree storage now node secondNode lastNode
    pathParts script, fun s q h => ?_, fun s q info h hm => ?_⟩
  · simp [adjustQuantityToLotSize, h]
  · simp [adjustQuantityToLotSize, h, hm]

/-- C7, witness: in the counterexample run, the raw first-leg order is
(vacuously) a fixed point of the adjustment, and the degenerate cases of
the adjustment evaluate to the identity. -/
theorem C7_no_raw_quantity_witness :
    adjustQuantityToLotSize [] "BTCUSDT" (20 / 3) = 20 / 3 ∧
    adjustQuantityToLotSize [] "X" 5 = 5 ∧
    adjustQuantityToLotSize [("Y", ⟨"Y", "A", "B", 0, 1⟩)] "Y" 5 = 5 := by
  have T := C7_no_raw_quantity_amended [] btcStorage 0 btcNode ethbtcNode
    ethusdtNode ["BTCUSDT", "ETHBTC", "ETHUSDT"]
    [⟨none, ⟨1, 1⟩⟩, ⟨none, ⟨1, 1⟩⟩, ⟨none, ⟨1, 1⟩⟩]
  have T2 := C7_no_raw_quantity_amended [("Y", ⟨"Y", "A", "B", 0, 1⟩)]
    btcStorage 0 btcNode ethbtcNode ethusdtNode
    ["BTCUSDT", "ETHBTC", "ETHUSDT"]
    [⟨none, ⟨1, 1⟩⟩, ⟨none, ⟨1, 1⟩⟩, ⟨none, ⟨1, 1⟩⟩]
  refine ⟨?_, T.2.1 "X" 5 rfl,
    T2.2.2 "Y" 5 ⟨"Y", "A", "B", 0, 1⟩ rfl (by norm_num)⟩
  have hmem : (⟨"BTCUSDT", "1", 20 / 3⟩ : MarketOrder) ∈
      (executeTrades [] btcStorage 0 btcNode ethbtcNode ethusdtNode
        ["BTCUSDT", "ETHBTC", "ETHUSDT"]
        [⟨none, ⟨1, 1⟩⟩, ⟨none, ⟨1, 1⟩⟩, ⟨none, ⟨1, 1⟩⟩]).orders := by
    simp +decide only [executeTrades, firstTrade, firstTradeFinish,
      secondTrade, secondTradeFinish, thirdTrade, takeResp,
      adjustQuantityToLotSize, AskPrice, BidPrice, lookupAssoc, btcStorage,
      btcNode, ethbtcNode, ethusdtNode, ttlNanos, ite_true, ite_false]
    norm_num
  exact T.1 ⟨"BTCUSDT", "1", 20 / 3⟩ hmem

/-- C4.  On a fully filled cycle (all three legs succeed) the mature
`executeTrades` does not return `true` by normal function return: it closes
the executor and panics with "stop" — contradicting its own doc comment
"Returns true if all trades were executed successfully" — while on a failed
leg it does return `false`. -/
theorem C4_return_semantics :
    (executeTrades [] c2Storage 0 c2Node c2Second c2Last
        ["USDTTRY", "BTRY", "BUSDT"]
        [⟨none, ⟨5, 7⟩⟩, ⟨none, ⟨5, 7⟩⟩, ⟨none, ⟨5, 7⟩⟩]).outcome
      = ExecOutcome.panicked "stop" ∧
    (executeTrades [] c2Storage 0 c2Node c2Second c2Last
        ["USDTTRY", "BTRY", "BUSDT"]
        [⟨none, ⟨5, 7⟩⟩, ⟨none, ⟨5, 7⟩⟩, ⟨some "Rejected", ⟨0, 0⟩⟩]).outcome
      = ExecOutcome.ret false := by
  constructor <;>
    simp +decide only [executeTrades, firstTrade, firstTradeFinish,
      secondTrade, secondTradeFinish, thirdTrade, takeResp,
      adjustQuantityToLotSize, AskPrice, BidPrice, lookupAssoc, c2Storage,
      c2Node, c2Second, c2Last, ttlNanos, ite_true, ite_false]

/-! ### Frame relation for C3: responses that agree on `err` and `cumQty`
(but may differ arbitrarily in `cumQuoteQty`) drive the execution to the
same submitted orders and the same outcome. -/

/-- Two executor responses agreeing on the error and on `cumQty`. -/
def RespAgree (r r2 : LegResp) : Prop :=
  r.err = r2.err ∧ r.report.cumQty = r2.report.cumQty

/-- Pointwise `RespAgree` on whole scripts. -/
def ScriptAgree : List LegResp → List LegResp → Prop :=
  List.Forall₂ RespAgree

/-- Two leg states agreeing on everything the subsequent trades read for
order construction: running amount, owned asset, submitted orders, and
(recursively) the remaining script.  `initialUSDT` is deliberately not
related — it only feeds the profit report. -/
def StateAgree (s t : LegState) : Prop :=
  s.currentAmount = t.currentAmount ∧ s.ownerOfCoin = t.ownerOfCoin ∧
    s.orders = t.orders ∧ ScriptAgree s.script t.script

/-- Agreement on trade-block results: identical orders on abort, agreeing
states on success. -/
def ExceptAgree :
    Except (List MarketOrder) LegState →
    Except (List MarketOrder) LegState → Prop
  | .error o, .error o2 => o = o2
  | .ok s, .ok t => StateAgree s t
  | _, _ => False

/-- Agreement on third-block results: identical orders (the final quote
amount is allowed to differ — it only feeds the profit report). -/
def ThirdAgree :
    Except (List MarketOrder) (List MarketOrder × ℚ) →
    Except (List MarketOrder) (List MarketOrder × ℚ) → Prop
  | .error o, .error o2 => o = o2
  | .ok p, .ok p2 => p.1 = p2.1
  | _, _ => False

/-- `takeResp` preserves agreement. -/
theorem takeResp_agree (sc sc2 : List LegResp) (h : ScriptAgree sc sc2) :
    RespAgree (takeResp sc).1 (takeResp sc2).1 ∧
      ScriptAgree (takeResp sc).2 (takeResp sc2).2 := by
  cases h with
  | nil => exact ⟨⟨rfl, rfl⟩, List.Forall₂.nil⟩
  | cons hr ht => exact ⟨hr, ht⟩

/-- The first trade block preserves agreement. -/
theorem firstTrade_agree (tree : TradingTree) (storage : PriceStorage)
    (now : ℤ) (node : SymbolInfo) (s1 : String) (sc sc2 : List LegResp)
    (h : ScriptAgree sc sc2) :
    ExceptAgree (firstTrade tree storage now node s1 sc)
      (firstTrade tree storage now node s1 sc2) := by
  obtain ⟨⟨he, hq⟩, hrest⟩ := takeResp_agree sc sc2 h
  unfold firstTrade firstTradeFinish
  dsimp only
  rw [← he, ← hq]
  by_cases hb : node.baseAsset = "USDT"
  · simp only [if_pos hb]
    cases hee : (takeResp sc).1.err with
    | some msg => exact rfl
    | none => exact ⟨rfl, rfl, rfl, hrest⟩
  · simp only [if_neg hb]
    by_cases h2 : (AskPrice storage now s1).2 = false
    · simp only [if_pos h2]
      exact rfl
    · simp only [if_neg h2]
      by_cases h3 : (AskPrice storage now s1).1 = 0
      · simp only [if_pos h3]
        exact rfl
      · simp only [if_neg h3]
        cases hee : (takeResp sc).1.err with
        | some msg => exact rfl
        | none => exact ⟨rfl, rfl, rfl, hrest⟩

/-- The second trade block preserves agreement. -/
theorem secondTrade_agree (tree : TradingTree) (storage : PriceStorage)
    (now : ℤ) (secondNode : SymbolInfo) (s2 : String) (st st2 : LegState)
    (h : StateAgree st st2) :
    ExceptAgree (secondTrade tree storage now secondNode s2 st)
      (secondTrade tree storage now secondNode s2 st2) := by
  obtain ⟨hcur, hown, hord, hscr⟩ := h
  obtain ⟨⟨he, hq⟩, hrest⟩ := takeResp_agree st.script st2.script hscr
  unfold secondTrade secondTradeFinish
  dsimp only
  rw [← hcur, ← hown, ← hord, ← he, ← hq]
  by_cases hb : secondNode.baseAsset = st.ownerOfCoin
  · simp only [if_pos hb]
    cases hee : (takeResp st.script).1.err with
    | some msg => exact rfl
    | none => exact ⟨rfl, rfl, rfl, hrest⟩
  · simp only [if_neg hb]
    by_cases h2 : (AskPrice storage now s2).2 = false
    · simp only [if_pos h2]
      exact rfl
    · simp only [if_neg h2]
      by_cases h3 : (AskPrice storage now s2).1 = 0
      · simp only [if_pos h3]
        exact rfl
      · simp only [if_neg h3]
        cases hee : (takeResp st.script).1.err with
        | some msg => exact rfl
        | none => exact ⟨rfl, rfl, rfl, hrest⟩

/-- The third trade block preserves agreement. -/
theorem thirdTrade_agree (tree : TradingTree) (storage : PriceStorage)
    (now : ℤ) (lastNode : SymbolInfo) (s3 : String) (st st2 : LegState)
    (h : StateAgree st st2) :
    ThirdAgree (thirdTrade tree storage now lastNode s3 st)
      (thirdTrade tree storage now lastNode s3 st2) := by
  obtain ⟨hcur, hown, hord, hscr⟩ := h
  obtain ⟨⟨he, hq⟩, hrest⟩ := takeResp_agree st.script st2.script hscr
  unfold thirdTrade
  dsimp only
  rw [← hcur, ← hown, ← hord, ← he]
  by_cases hb : lastNode.baseAsset = st.ownerOfCoin
  · simp only [if_pos hb]
    cases hee : (takeResp st.script).1.err with
    | some msg => exact rfl
    | none => exact rfl
  · simp only [if_neg hb]
    by_cases h2 : (AskPrice storage now s3).2 = false
    · simp only [if_pos h2]
      exact rfl
    · simp only [if_neg h2]
      by_cases h3 : (AskPrice storage now s3).1 = 0
      · simp only [if_pos h3]
        exact rfl
      · simp only [if_neg h3]
        cases hee : (takeResp st.script).1.err with
        | some msg => exact rfl
        | none => exact rfl

/-- Scripts agreeing on `err` and `cumQty` (arbitrary `cumQuoteQty`) give a
cycle execution with the same outcome and the same submitted orders. -/
theorem executeTrades_quote_frame (tree : TradingTree)
    (storage : PriceStorage) (now : ℤ) (node secondNode lastNode : SymbolInfo)
    (pathParts : List String) (sc sc2 : List LegResp)
    (h : ScriptAgree sc sc2) :
    (executeTrades tree storage now node secondNode lastNode pathParts
        sc).outcome
      = (executeTrades tree storage now node secondNode lastNode pathParts
        sc2).outcome ∧
    (executeTrades tree storage now node secondNode lastNode pathParts
        sc).orders
      = (executeTrades tree storage now node secondNode lastNode pathParts
        sc2).orders := by
  unfold executeTrades
  split
  · rename_i firstSymbol secondSymbol lastSymbol
    have h1 := firstTrade_agree tree storage now node firstSymbol sc sc2 h
    cases hf : firstTrade tree storage now node firstSymbol sc with
    | error o =>
      cases hf2 : firstTrade tree storage now node firstSymbol sc2 with
      | error o2 =>
        rw [hf, hf2] at h1
        simp only [ExceptAgree] at h1
        subst h1
        exact ⟨rfl, rfl⟩
      | ok t =>
        rw [hf, hf2] at h1
        exact absurd h1 (by simp [ExceptAgree])
    | ok st1 =>
      cases hf2 : firstTrade tree storage now node firstSymbol sc2 with
      | error o2 =>
        rw [hf, hf2] at h1
        exact absurd h1 (by simp [ExceptAgree])
      | ok st1b =>
        rw [hf, hf2] at h1
        simp only [ExceptAgree] at h1
        dsimp only
        have h2 := secondTrade_agree tree storage now secondNode secondSymbol
          st1 st1b h1
        cases hs : secondTrade tree storage now secondNode secondSymbol st1 with
        | error o =>
          cases hs2 : secondTrade tree storage now secondNode secondSymbol st1b with
          | error o2 =>
            rw [hs, hs2] at h2
            simp only [ExceptAgree] at h2
            subst h2
            exact ⟨rfl, rfl⟩
          | ok t =>
            rw [hs, hs2] at h2
            exact absurd h2 (by simp [ExceptAgree])
        | ok st2 =>
          cases hs2 : secondTrade tree storage now secondNode secondSymbol st1b with
          | error o2 =>
            rw [hs, hs2] at h2
            exact absurd h2 (by simp [ExceptAgree])
          | ok st2b =>
            rw [hs, hs2] at h2
            simp only [ExceptAgree] at h2
            dsimp only
            have h3 := thirdTrade_agree tree storage now lastNode lastSymbol
              st2 st2b h2
            cases ht : thirdTrade tree storage now lastNode lastSymbol st2 with
            | error o =>
              cases ht2 : thirdTrade tree storage now lastNode lastSymbol st2b with
              | error o2 =>
                rw [ht, ht2] at h3
                simp only [ThirdAgree] at h3
                subst h3
                exact ⟨rfl, rfl⟩
              | ok p =>
                rw [ht, ht2] at h3
                exact absurd h3 (by simp [ThirdAgree])
            | ok p =>
              cases ht2 : thirdTrade tree storage now lastNode lastSymbol st2b with
              | error o2 =>
                rw [ht, ht2] at h3
                exact absurd h3 (by simp [ThirdAgree])
              | ok p2 =>
                rw [ht, ht2] at h3
                simp only [ThirdAgree] at h3
                obtain ⟨ords, fin⟩ := p
                obtain ⟨ords2, fin2⟩ := p2
                simp only at h3
                subst h3
                exact ⟨rfl, rfl⟩
  · exact ⟨rfl, rfl⟩

/-- A bridge pair whose base asset is TRY, so that leg 2 is a sell when
TRY is owned after leg 1. -/
def c3Second : SymbolInfo := ⟨"TRYB", "TRY", "B", 1, 1⟩

/-- C3, counterexample.  Leg 1 is a sell (root pair USDTTRY, base USDT).
Two runs whose leg-1 reports have the same `cumQuoteQty` (7) but different
`cumQty` (5 vs 6) submit different quantities for leg 2 (5 vs 6): the leg-2
quantity is derived from the sell leg's `cumQty`, not from its
`cumQuoteQty` as the claim states. -/
theorem C3_nextleg_counterexample :
    (executeTrades [] c2Storage 0 c2Node c3Second c2Last
        ["USDTTRY", "TRYB", "BUSDT"]
        [⟨none, ⟨5, 7⟩⟩, ⟨none, ⟨1, 1⟩⟩, ⟨none, ⟨1, 1⟩⟩]).orders.get? 1
      = some ⟨"TRYB", "2", 5⟩ ∧
    (executeTrades [] c2Storage 0 c2Node c3Second c2Last
        ["USDTTRY", "TRYB", "BUSDT"]
        [⟨none, ⟨6, 7⟩⟩, ⟨none, ⟨1, 1⟩⟩, ⟨none, ⟨1, 1⟩⟩]).orders.get? 1
      = some ⟨"TRYB", "2", 6⟩ ∧
    (5 : ℚ) ≠ 6 := by
  refine ⟨?_, ?_, by norm_num⟩ <;>
    simp +decide only [executeTrades, firstTrade, firstTradeFinish,
      secondTrade, secondTradeFinish, thirdTrade, takeResp,
      adjustQuantityToLotSize, AskPrice, BidPrice, lookupAssoc, c2Storage,
      c2Node, c3Second, c2Last, ttlNanos, ite_true, ite_false]

/-- C3, amended.  (1) After a successful first leg — whether a buy or a
sell — the amount carried into leg 2 is the leg-1 report's `cumQty`, never
its `cumQuoteQty`; (2)/(3) the leg-2 submitted quantity is the lot-adjusted
carried amount (sell orientation) or the carried amount divided by the ask
price (buy orientation); (4) when the symbol is present in the trading tree
(so the mock-environment workaround does not fire), the amount carried from
leg 2 into leg 3 is the leg-2 report's `cumQty`; (5) the reported
`cumQuoteQty` values never influence the submitted orders or the outcome —
they feed only the profit report. -/
theorem C3_nextleg_amended (tree : TradingTree) (storage : PriceStorage)
    (now : ℤ) (node secondNode : SymbolInfo)
    (firstSymbol secondSymbol : String) (script : List LegResp)
    (st stb : LegState) :
    (firstTrade tree storage now node firstSymbol script = .ok st →
      st.currentAmount = (takeResp script).1.report.cumQty) ∧
    (secondNode.baseAsset = st.ownerOfCoin →
      exceptOrders (secondTrade tree storage now secondNode secondSymbol st)
        = st.orders ++ [⟨secondSymbol, "2",
            adjustQuantityToLotSize tree secondSymbol st.currentAmount⟩]) ∧
    (secondNode.baseAsset ≠ st.ownerOfCoin →
      (AskPrice storage now secondSymbol).2 ≠ false →
      (AskPrice storage now secondSymbol).1 ≠ 0 →
      exceptOrders (secondTrade tree storage now secondNode secondSymbol st)
        = st.orders ++ [⟨secondSymbol, "1",
            adjustQuantityToLotSize tree secondSymbol
              (st.currentAmount / (AskPrice storage now secondSymbol).1)⟩]) ∧
    ((∃ info, lookupAssoc tree secondSymbol = some info) →
      secondTrade tree storage now secondNode secondSymbol st = .ok stb →
      stb.currentAmount = (takeResp st.script).1.report.cumQty) ∧
    (∀ (lastNode : SymbolInfo) (pathParts : List String)
        (sc sc2 : List LegResp), ScriptAgree sc sc2 →
      (executeTrades tree storage now node secondNode lastNode pathParts
          sc).outcome
        = (executeTrades tree storage now node secondNode lastNode pathParts
          sc2).outcome ∧
      (executeTrades tree storage now node secondNode lastNode pathParts
          sc).orders
        = (executeTrades tree storage now node secondNode lastNode pathParts
          sc2).orders) := by
  refine ⟨fun h => ?_, fun hb => ?_, fun hb h2 h3 => ?_, fun hin h => ?_,
    fun lastNode pathParts sc sc2 hA =>
      executeTrades_quote_frame tree storage now node secondNode lastNode
        pathParts sc sc2 hA⟩
  · unfold firstTrade firstTradeFinish at h
    dsimp only at h
    repeat' split at h
    all_goals first
      | exact Except.noConfusion h
      | (simp only [Except.ok.injEq] at h; subst h; rfl)
  · unfold secondTrade secondTradeFinish
    dsimp only
    simp only [if_pos hb]
    cases hee : (takeResp st.script).1.err with
    | some msg => exact rfl
    | none => exact rfl
  · unfold secondTrade secondTradeFinish
    dsimp only
    simp only [if_neg hb, if_neg h2, if_neg h3]
    cases hee : (takeResp st.script).1.err with
    | some msg => exact rfl
    | none => exact rfl
  · obtain ⟨info, hinfo⟩ := hin
    unfold secondTrade secondTradeFinish at h
    dsimp only at h
    simp only [hinfo] at h
    repeat' split at h
    all_goals first
      | exact Except.noConfusion h
      | (simp only [Except.ok.injEq] at h; subst h; rfl)
      | simp_all

/-- C3, witness: the amended theorem evaluated on a concrete sell-sell
cycle — the carried amount equals the leg-1 `cumQty`, the leg-2 order is
the adjusted carried amount, and two scripts differing only in
`cumQuoteQty` give identical orders and outcome. -/
theorem C3_nextleg_witness :
    ((⟨7, 5, "TRY", [], [⟨"USDTTRY", "2", 20⟩]⟩ : LegState)).currentAmount
      = (takeResp [⟨none, ⟨5, 7⟩⟩]).1.report.cumQty ∧
    exceptOrders (secondTrade [] c2Storage 0 c3Second "TRYB"
        ⟨7, 5, "TRY", [], [⟨"USDTTRY", "2", 20⟩]⟩)
      = [⟨"USDTTRY", "2", 20⟩] ++ [⟨"TRYB", "2",
          adjustQuantityToLotSize [] "TRYB" 5⟩] ∧
    (executeTrades [] c2Storage 0 c2Node c3Second c2Last
        ["USDTTRY", "TRYB", "BUSDT"] [⟨none, ⟨5, 7⟩⟩]).orders
      = (executeTrades [] c2Storage 0 c2Node c3Second c2Last
        ["USDTTRY", "TRYB", "BUSDT"] [⟨none, ⟨5, 9⟩⟩]).orders := by
  have T := C3_nextleg_amended [] c2Storage 0 c2Node c3Second "USDTTRY"
    "TRYB" [⟨none, ⟨5, 7⟩⟩] ⟨7, 5, "TRY", [], [⟨"USDTTRY", "2", 20⟩]⟩
    ⟨7, 5, "TRY", [], [⟨"USDTTRY", "2", 20⟩]⟩
  refine ⟨T.1 ?_, T.2.1 rfl,
    (T.2.2.2.2 c2Last ["USDTTRY", "TRYB", "BUSDT"] [⟨none, ⟨5, 7⟩⟩]
      [⟨none, ⟨5, 9⟩⟩] (List.Forall₂.cons ⟨rfl, rfl⟩ List.Forall₂.nil)).2⟩
  simp +decide only [firstTrade, firstTradeFinish, takeResp,
    adjustQuantityToLotSize, lookupAssoc, c2Node, ite_true, ite_false]

/-- C8, witness: a stored quote 50 ns old is returned with `ok = true`. -/
theorem C8_staleness_witness :
    BidPrice [("S", ⟨5, 7, 100⟩)] 150 "S" = (5, true) ∧
    AskPrice [("S", ⟨5, 7, 100⟩)] 150 "S" = (7, true) :=
  (C8_staleness [("S", ⟨5, 7, 100⟩)] 150 "S" 1 2 ⟨5, 7, 100⟩).2.2.2 rfl
    (by norm_num [ttlNanos])

/-! ## The FIX executor (`executor.go`)

`SendMarketOrder` registers a buffered reply channel in the pending-order
table under a fresh client order id (`order-<nanos>`), transmits, then waits
on the channel with a 30-second timeout; `Rejected` triggers a bounded
retry with a 500 ms backoff and a freshly built request.  The model takes
the channel traffic of each attempt as a list of events (an exhausted list
means the 30-second timer fires first) and threads a nanosecond clock that
strictly increases across attempts (the backoff guarantees distinct
`UnixNano` values, hence fresh client order ids). -/

/-- The fields of an inbound report that the send loop inspects. -/
structure OrderReport where
  ordStatus : String
  error : Option String
  deriving Repr, DecidableEq

/-- One event observed on an attempt's reply channel: a report, or the
channel found closed. -/
inductive ChanEvent
  | report (r : OrderReport)
  | closed
  deriving Repr, DecidableEq

/-- Events of the send path that the claims talk about: registration of the
pending-order entry, transmission of the order message, and the 500 ms
retry backoff; `register`/`transmit` carry the attempt's `UnixNano` value
(the client order id is `"order-<nano>"`). -/
inductive SendEv
  | register (nano : ℕ)
  | transmit (nano : ℕ)
  | sleep
  deriving Repr, DecidableEq

/-- The outcome of `SendMarketOrder`. -/
inductive SendResult
  | ok (r : OrderReport)
  | err (msg : String)
  deriving Repr, DecidableEq

/-- How one attempt's wait loop terminates (the `select` loop of
`SendMarketOrder`): reports with a set `Error` only update `lastError`;
`"2"` returns the report; `"8"` retries when retries remain and otherwise
fails; `"4"` fails immediately; anything else is `unknown condition`;
a closed channel returns `lastError`; an exhausted event list means the
30-second timer fired. -/
inductive AttemptOutcome
  | filled (r : OrderReport)
  | rejectedRetry (r : OrderReport)
  | rejectedFail (r : OrderReport)
  | canceled (r : OrderReport)
  | unknown (r : OrderReport)
  | closedChan (lastError : Option String)
  | timedOut
  deriving Repr, DecidableEq

/-- The wait loop of one attempt. -/
def runAttempt (retryCount : ℕ) : List ChanEvent → Option String →
    AttemptOutcome
  | [], _ => .timedOut
  | .closed :: _, lastError => .closedChan lastError
  | .report r :: rest, _lastError =>
    match r.error with
    | some e => runAttempt retryCount rest (some e)
    | none =>
      if r.ordStatus = "2" then .filled r
      else if r.ordStatus = "8" then
        if retryCount > 0 then .rejectedRetry r else .rejectedFail r
      else if r.ordStatus = "4" then .canceled r
      else .unknown r

/-- `Executor.SendMarketOrder`: the connection check, then per attempt the
registration (before transmission), the transmission, and the wait loop; on
`Rejected` with retries left, the counter is decremented, the backoff runs,
and a fresh request is submitted under a new client order id (the clock
advanced).  Returns the result and the event trace. -/
def sendMarketOrder (connected : Bool) (retryCount nano : ℕ) :
    List (List ChanEvent) → SendResult × List SendEv
  | [] =>
    if connected = false then
      (.err "FIX connection is not active or not authenticated", [])
    else (.err "timed out", [.register nano, .transmit nano])
  | evs :: rest =>
    if connected = false then
      (.err "FIX connection is not active or not authenticated", [])
    else
      let trace0 : List SendEv := [.register nano, .transmit nano]
      match runAttempt retryCount evs none with
      | .filled r => (.ok r, trace0)
      | .rejectedRetry _ =>
        let next := sendMarketOrder connected (retryCount - 1) (nano + 1) rest
        (next.1, trace0 ++ [.sleep] ++ next.2)
      | .rejectedFail _ => (.err "order was 8 after multiple retries", trace0)
      | .canceled _ => (.err "order was 4", trace0)
      | .unknown _ => (.err "unknown condition", trace0)
      | .closedChan lastError =>
        match lastError with
        | some e => (.err e, trace0)
        | none => (.ok ⟨"", none⟩, trace0)
      | .timedOut => (.err "timed out", trace0)

/-! ## The pending-order table under concurrency (C5)

One client order id's life is modelled as a tiny transition system: the
state records whether the table entry is registered, whether the reply
channel is still open, and counts of performed closes, deliveries and
escaped panics.  `deliverTerminal` is the whole terminal branch of
`FromApp` (lines executed under `pendingOrdersLock`: send, `close(ch)` —
a plain close that would panic on a closed channel — and `delete`);
`cleanupDelete` is `cleanupResources`'s locked delete, and
`cleanupSafeClose` its `safeClose` (performed outside the lock, with a
`recover` that swallows a double-close panic).  The buffered (size 5)
channel makes the locked send non-blocking. -/

/-- State of one pending order's entry and channel. -/
structure PendState where
  registered : Bool
  chanOpen : Bool
  closes : ℕ
  deliveries : ℕ
  panics : ℕ
  deriving Repr, DecidableEq

/-- The atomic actions on a pending order (each is one critical section, or
`safeClose` outside the lock). -/
inductive PendAction
  | deliverTerminal
  | cleanupDelete
  | cleanupSafeClose
  deriving Repr, DecidableEq

/-- One step of the pending-order machine. -/
def pendStep (s : PendState) : PendAction → PendState
  | .deliverTerminal =>
    if s.registered then
      if s.chanOpen then
        { s with deliveries := s.deliveries + 1, closes := s.closes + 1,
                 chanOpen := false, registered := false }
      else
        { s with deliveries := s.deliveries + 1, panics := s.panics + 1,
                 registered := false }
    else s
  | .cleanupDelete => { s with registered := false }
  | .cleanupSafeClose =>
    if s.chanOpen then { s with closes := s.closes + 1, chanOpen := false }
    else s

/-- Run a sequence of actions. -/
def pendRun (s : PendState) (tr : List PendAction) : PendState :=
  tr.foldl pendStep s

/-- The state right after registration-and-transmit: entry present,
channel open, nothing delivered or closed yet. -/
def pendInit : PendState := ⟨true, true, 0, 0, 0⟩

/-- Every schedule of one timeout/send-failure cleanup (its two steps
`cleanupDelete < cleanupSafeClose` kept in order) against up to two
terminal-report deliveries, plus the pure schedules: all 3 interleavings
with one delivery, all 6 with two deliveries, and the 3 uninterleaved
runs. -/
def allPendTraces : List (List PendAction) :=
  [[.deliverTerminal, .cleanupDelete, .cleanupSafeClose],
   [.cleanupDelete, .deliverTerminal, .cleanupSafeClose],
   [.cleanupDelete, .cleanupSafeClose, .deliverTerminal],
   [.deliverTerminal, .deliverTerminal, .cleanupDelete, .cleanupSafeClose],
   [.deliverTerminal, .cleanupDelete, .deliverTerminal, .cleanupSafeClose],
   [.deliverTerminal, .cleanupDelete, .cleanupSafeClose, .deliverTerminal],
   [.cleanupDelete, .deliverTerminal, .deliverTerminal, .cleanupSafeClose],
   [.cleanupDelete, .deliverTerminal, .cleanupSafeClose, .deliverTerminal],
   [.cleanupDelete, .cleanupSafeClose, .deliverTerminal, .deliverTerminal],
   [.cleanupDelete, .cleanupSafeClose],
   [.deliverTerminal],
   [.deliverTerminal, .deliverTerminal]]

/-! ## Inbound dispatch (`FromApp`, mature version) -/

/-- The fields of a parsed execution report that drive the dispatch. -/
structure InboundReport where
  clOrdID : String
  ordStatus : String
  deriving Repr, DecidableEq

/-- The dispatch step at the end of `FromApp` (executor.go lines 534-545):
under the table lock, look up the client order id; only when the status is
terminal (`"2"`, `"4"`, `"8"`) deliver the report, close the channel and
delete the entry; otherwise do nothing at all.  Returns the new table (the
registered ids) and the reports delivered on the matching channel. -/
def fromAppDispatch (table : List String) (r : InboundReport) :
    List String × List InboundReport :=
  if r.clOrdID ∈ table then
    if r.ordStatus = "2" ∨ r.ordStatus = "4" ∨ r.ordStatus = "8" then
      (table.erase r.clOrdID, [r])
    else (table, [])
  else (table, [])

/-- C6.  (a) A `Rejected` terminal report with retries remaining decrements
the counter, runs the fixed backoff, and resubmits a freshly built request
under a new client order id (the clock strictly advanced); (b) starting
with `remainingRetries = 2` and three `Rejected` reports, exactly 3 send
attempts occur — three registrations/transmissions under the distinct ids
`n`, `n+1`, `n+2` with a backoff between consecutive attempts — and the
call then returns an error; (c) a `Canceled` terminal report is never
retried: one single send attempt and an immediate error, whatever the
remaining retry budget and script. -/
theorem C6_retry_policy (r1 r2 r3 r4 : OrderReport) (n rc : ℕ)
    (rest : List (List ChanEvent))
    (h1 : r1.ordStatus = "8") (e1 : r1.error = none)
    (h2 : r2.ordStatus = "8") (e2 : r2.error = none)
    (h3 : r3.ordStatus = "8") (e3 : r3.error = none)
    (h4 : r4.ordStatus = "4") (e4 : r4.error = none) (hrc : rc > 0) :
    (sendMarketOrder true rc n ([.report r1] :: rest)
      = ((sendMarketOrder true (rc - 1) (n + 1) rest).1,
         [.register n, .transmit n, .sleep]
           ++ (sendMarketOrder true (rc - 1) (n + 1) rest).2)) ∧
    (sendMarketOrder true 2 n [[.report r1], [.report r2], [.report r3]]
      = (.err "order was 8 after multiple retries",
         [.register n, .transmit n, .sleep,
          .register (n + 1), .transmit (n + 1), .sleep,
          .register (n + 2), .transmit (n + 2)])) ∧
    (n ≠ n + 1 ∧ n ≠ n + 2 ∧ n + 1 ≠ n + 2) ∧
    (sendMarketOrder true rc n ([.report r4] :: rest)
      = (.err "order was 4", [.register n, .transmit n])) := by
  refine ⟨?_, ?_, by omega, ?_⟩
  · simp +decide [sendMarketOrder, runAttempt, h1, e1, hrc]
  · simp +decide [sendMarketOrder, runAttempt, h1, e1, h2, e2, h3, e3]
  · simp +decide [sendMarketOrder, runAttempt, h4, e4]

/-- C6, witness: the retry policy evaluated on concrete Rejected and
Canceled reports. -/
theorem C6_retry_policy_witness :
    (sendMarketOrder true 2 1000
        [[.report ⟨"8", none⟩], [.report ⟨"8", none⟩], [.report ⟨"8", none⟩]]
      = (.err "order was 8 after multiple retries",
         [.register 1000, .transmit 1000, .sleep,
          .register 1001, .transmit 1001, .sleep,
          .register 1002, .transmit 1002])) ∧
    (sendMarketOrder true 3 1000 [[.report ⟨"4", none⟩]]
      = (.err "order was 4", [.register 1000, .transmit 1000])) := by
  have T := C6_retry_policy ⟨"8", none⟩ ⟨"8", none⟩ ⟨"8", none⟩ ⟨"4", none⟩
    1000 3 [] rfl rfl rfl rfl rfl rfl rfl rfl (by norm_num)
  exact ⟨T.2.1, T.2.2.2⟩

/-- C5.  (i) For every schedule of the timeout/send-failure cleanup (locked
delete, then `safeClose` outside the lock) against up to two terminal-report
deliveries (each one critical section of `FromApp`), the reply channel
receives at most one terminal report, is closed exactly once, no panic
escapes (the only double-close attempt is `safeClose`'s, which recovers),
and the table entry ends up removed; (ii) on the send path the
pending-order entry is registered before the order message is transmitted:
the event trace of every call starts with `register` then `transmit`. -/
theorem C5_pending_single_delivery :
    (∀ tr ∈ allPendTraces,
      (pendRun pendInit tr).deliveries ≤ 1 ∧
      (pendRun pendInit tr).closes = 1 ∧
      (pendRun pendInit tr).panics = 0 ∧
      (pendRun pendInit tr).registered = false) ∧
    (∀ (rc nano : ℕ) (attempts : List (List ChanEvent)),
      ((sendMarketOrder true rc nano attempts).2).take 2
        = [.register nano, .transmit nano]) := by
  constructor
  · decide
  · intro rc nano attempts
    cases attempts with
    | nil => rfl
    | cons evs rest =>
      simp only [sendMarketOrder]
      cases hr : runAttempt rc evs none with
      | closedChan lastError => cases lastError <;> simp
      | _ => simp

/-- C5, witness: a concrete race — the terminal report is delivered first,
then the timeout cleanup runs — yields one delivery, one close, no panic;
and a concrete send's trace begins with registration before transmission. -/
theorem C5_pending_single_delivery_witness :
    ((pendRun pendInit
        [.deliverTerminal, .cleanupDelete, .cleanupSafeClose]).deliveries ≤ 1 ∧
      (pendRun pendInit
        [.deliverTerminal, .cleanupDelete, .cleanupSafeClose]).closes = 1 ∧
      (pendRun pendInit
        [.deliverTerminal, .cleanupDelete, .cleanupSafeClose]).panics = 0 ∧
      (pendRun pendInit
        [.deliverTerminal, .cleanupDelete, .cleanupSafeClose]).registered
        = false) ∧
    ((sendMarketOrder true 3 1000 [[.closed]]).2).take 2
      = [.register 1000, .transmit 1000] :=
  ⟨C5_pending_single_delivery.1
      [.deliverTerminal, .cleanupDelete, .cleanupSafeClose] (by decide),
    C5_pending_single_delivery.2 3 1000 [[.closed]]⟩

/-- C10.  For every inbound execution report whose `OrdStatus` is none of
`"2"`, `"4"`, `"8"`, the dispatcher leaves the pending-order table
unchanged and delivers nothing on the reply channel. -/
theorem C10_nonterminal_frame (table : List String) (r : InboundReport)
    (h2 : r.ordStatus ≠ "2") (h4 : r.ordStatus ≠ "4")
    (h8 : r.ordStatus ≠ "8") :
    fromAppDispatch table r = (table, []) := by
  unfold fromAppDispatch
  have hcond : ¬(r.ordStatus = "2" ∨ r.ordStatus = "4" ∨ r.ordStatus = "8") := by
    simp [h2, h4, h8]
  by_cases hm : r.clOrdID ∈ table
  · rw [if_pos hm, if_neg hcond]
  · rw [if_neg hm]

/-- C10, witness: a partial-fill report (`OrdStatus = "1"`) for a
registered order leaves the table untouched and delivers nothing. -/
theorem C10_nonterminal_frame_witness :
    fromAppDispatch ["order-1000"] ⟨"order-1000", "1"⟩
      = (["order-1000"], []) :=
  C10_nonterminal_frame ["order-1000"] ⟨"order-1000", "1"⟩
    (by decide) (by decide) (by decide)

end Alarket
